import Mathlib

/-!
# A shallow embedding of `sentinel.py` (eddieantonio/sentinel)

This file models the factory `sentinel.create` and the machinery around it:

* the injected class dictionary (`__module__`, `__repr__`, `__reduce__`,
  `__copy__`, `__deepcopy__`, and conditionally `__slots__`),
* the MRO validation (`assert mro[-1] is object` when `object ∈ mro`),
* the `type(mro[0])` index access that evaluates the metaclass bases,
* the caller-supplied `cls_dict` update (`_cls_dict.update(cls_dict)`),
* the metaclass construction interceptor `_SentinelMeta.__call__` backed by
  the global registry `_sinstances`,
* the post-construction override `_sentinel.__new__ = _sentinel_failing_new`.

Object identity is modelled by allocation ids drawn from a counter in the
global state; Python dictionaries are association lists with first-match
lookup and in-place overwrite on update; the relevant parts of the runtime
(pickling via a string-returning `__reduce__`, `copy`/`deepcopy` dispatch,
attribute resolution along the MRO of a class with unrelated bases, and the
duplicate-base check performed by `type`) are modelled from their documented
semantics, since the source invokes them.
-/

set_option autoImplicit false

namespace Sentinel

/-- A value that can appear in a class dictionary.  The five injected hooks,
the empty `__slots__` tuple and `_sentinel_failing_new` are distinguished;
everything a caller can put into `cls_dict` is an opaque `user` member. -/
inductive Member where
  | moduleAttr (m : Option String)
  | reprHook (name : String)
  | reduceHook (name : String)
  | copyHook
  | deepcopyHook
  | emptySlots
  | failingNew
  | user (tag : Nat)
deriving DecidableEq

/-- A Python type usable as a base class: the universal root `object`, or an
ordinary capability class with a name and a member dictionary.  Capability
classes are unrelated leaf classes (no inheritance among them), matching how
capabilities are used by the factory's callers. -/
inductive PyTy where
  | obj : PyTy
  | cls (name : String) (members : List (String × Member)) : PyTy
deriving DecidableEq

/-- A Python `dict` as an association list; keys are unique in dictionaries
produced by the model. -/
abbrev Dict := List (String × Member)

/-- `d[k]`: first-match association-list lookup. -/
def dictGet : Dict → String → Option Member
  | [], _ => none
  | (k', v) :: rest, k => if k' = k then some v else dictGet rest k

/-- `d[k] = v`: overwrite in place if the key is present, else append. -/
def dictInsert : Dict → String → Member → Dict
  | [], k, v => [(k, v)]
  | (k', v') :: rest, k, v =>
    if k' = k then (k', v) :: rest else (k', v') :: dictInsert rest k v

/-- `d.update(other)`: insert every entry of `other` into `d`, left to
right, later entries overwriting earlier ones of the same key. -/
def dictUpdate (d other : Dict) : Dict :=
  other.foldl (fun acc p => dictInsert acc p.1 p.2) d

/-- The synthesized sentinel type: an allocation id (Python object
identity), its class dictionary, and its base classes. -/
structure SentinelTy where
  tyId : Nat
  clsDict : Dict
  mro : List PyTy
deriving DecidableEq

/-- Global state: the allocation counter and the `_sinstances` registry
mapping a sentinel type's id to its instance's id. -/
structure SState where
  nextId : Nat
  sinstances : List (Nat × Nat)
deriving DecidableEq

/-- The state at interpreter startup: nothing allocated, empty registry. -/
def initState : SState := ⟨0, []⟩

/-- `_sinstances.get(T)` / `_sinstances[T]` lookup. -/
def lookupInstance (st : SState) (tyId : Nat) : Option Nat :=
  match st.sinstances.find? (fun p => p.1 == tyId) with
  | some p => some p.2
  | none => none

/-- Well-formedness of the global state: every registered type id was
produced by the allocator. -/
def SState.WF (st : SState) : Prop :=
  ∀ p ∈ st.sinstances, p.1 < st.nextId

/-- The errors surfaced by the modelled code paths.  `specificationError`
is the `AssertionError` of the `mro[-1] is object` assert;
`indexError` is the `IndexError` from `type(mro[0])` on an empty `mro`;
`duplicateBaseError` is the `TypeError` raised by `type` when a base class
is repeated; `allocationError` is the `TypeError` raised by
`_sentinel_failing_new`. -/
inductive PyErr where
  | specificationError
  | indexError
  | duplicateBaseError
  | allocationError
deriving DecidableEq

/-- The initial `_cls_dict` literal built by `create`, in source order. -/
def baseClsDict (name : String) (caller : Option String) : Dict :=
  [("__module__", Member.moduleAttr caller),
   ("__repr__", Member.reprHook name),
   ("__reduce__", Member.reduceHook name),
   ("__copy__", Member.copyHook),
   ("__deepcopy__", Member.deepcopyHook)]

/-- The `if mro == _DEFAULT_MRO: ... elif object in mro: assert ...`
branch of `create`: validate the placement of `object` in `mro`. -/
def mroCheck (mro : List PyTy) : Except PyErr Unit :=
  if mro = [PyTy.obj] then Except.ok ()
  else if PyTy.obj ∈ mro then
    if mro.getLast? = some PyTy.obj then Except.ok ()
    else Except.error PyErr.specificationError
  else Except.ok ()

/-- The class dictionary of the synthesized type before the post-construction
`__new__` override: the injected hooks, `__slots__ = ()` exactly when `mro`
is the default `(object,)`, updated with the caller's `cls_dict` if given. -/
def composeDict (name : String) (mro : List PyTy) (clsDict : Option Dict)
    (caller : Option String) : Dict :=
  let base := baseClsDict name caller
  let base := if mro = [PyTy.obj] then dictInsert base "__slots__" Member.emptySlots
              else base
  match clsDict with
  | some user => dictUpdate base user
  | none => base

/-- `_SentinelMeta.__call__`: return the cached instance if the registry has
one for this type; otherwise run the normal construction (`super().__call__`),
which invokes the type's `__new__` — failing if the guard is installed, else
allocating a fresh instance — and register the result.  The constructor
arguments are forwarded but play no further role. -/
def callSentinelTy (st : SState) (T : SentinelTy) (args : List Nat)
    (kwargs : List (String × Nat)) : Except PyErr (Nat × SState) :=
  match lookupInstance st T.tyId with
  | some i => Except.ok (i, st)
  | none =>
    match dictGet T.clsDict "__new__" with
    | some Member.failingNew => Except.error PyErr.allocationError
    | _ =>
      let i := st.nextId
      let _ := (args, kwargs)
      Except.ok (i, ⟨st.nextId + 1, (T.tyId, i) :: st.sinstances⟩)

/-- Invoking the type's raw allocation path `T.__new__(T, ...)` directly,
bypassing `_SentinelMeta.__call__`. -/
def rawNew (st : SState) (T : SentinelTy) : Except PyErr (Nat × SState) :=
  match dictGet T.clsDict "__new__" with
  | some Member.failingNew => Except.error PyErr.allocationError
  | _ => Except.ok (st.nextId, { st with nextId := st.nextId + 1 })

/-- `sentinel.create(name, mro, cls_dict, *args, **kwargs)`, with the module
of the caller supplied explicitly (the model of `_get_caller_module()`):
build the class dictionary, validate `mro`, index `mro[0]` for the
metaclass, create the type (rejecting duplicate bases as `type` does),
construct the single instance through `_SentinelMeta.__call__`, then
overwrite the type's `__new__` with `_sentinel_failing_new`. -/
def create (st : SState) (name : String) (mro : List PyTy)
    (clsDict : Option Dict) (caller : Option String) (args : List Nat)
    (kwargs : List (String × Nat)) :
    Except PyErr (Nat × SentinelTy × SState) :=
  match mroCheck mro with
  | Except.error e => Except.error e
  | Except.ok () =>
    if mro.isEmpty then Except.error PyErr.indexError
    else if ¬ mro.Nodup then Except.error PyErr.duplicateBaseError
    else
      match callSentinelTy { st with nextId := st.nextId + 1 }
          ⟨st.nextId, composeDict name mro clsDict caller, mro⟩ args kwargs with
      | Except.error e => Except.error e
      | Except.ok (inst, st₂) =>
        Except.ok (inst,
          ⟨st.nextId,
           dictInsert (composeDict name mro clsDict caller) "__new__" Member.failingNew,
           mro⟩,
          st₂)

/-! ## Values, copying, pickling -/

/-- A Python value as far as the hook set is concerned: an opaque atom, a
sentinel instance (its identity and its type), or a container modelled as a
cons-list. -/
inductive PyVal where
  | atom (n : Nat)
  | sent (inst : Nat) (ty : SentinelTy)
  | nilV
  | consV (hd tl : PyVal)
deriving DecidableEq

/-- The pickled form of a value: a string-returning `__reduce__` makes
pickle store the pair (module of the object's type, returned name), to be
resolved as a module attribute on load. -/
inductive Pickled where
  | patom (n : Nat)
  | pglobal (module : Option String) (name : String)
  | pnil
  | pcons (hd tl : Pickled)
deriving DecidableEq

/-- `pickle.dumps`: atoms and containers pickle structurally; a sentinel
pickles through its type's `__reduce__` and `__module__`.  If either hook
has been replaced by a caller-supplied member, the behaviour is outside the
model. -/
def serializeVal : PyVal → Option Pickled
  | PyVal.atom n => some (Pickled.patom n)
  | PyVal.sent _ ty =>
    match dictGet ty.clsDict "__reduce__", dictGet ty.clsDict "__module__" with
    | some (Member.reduceHook nm), some (Member.moduleAttr m) =>
      some (Pickled.pglobal m nm)
    | _, _ => none
  | PyVal.nilV => some Pickled.pnil
  | PyVal.consV a b =>
    match serializeVal a, serializeVal b with
    | some a', some b' => some (Pickled.pcons a' b')
    | _, _ => none

/-- `pickle.loads`, given the module environment `env` (what
`getattr(sys.modules[module], name)` resolves to): a global reference is
re-resolved as a module attribute. -/
def deserializeVal (env : Option String → String → Option PyVal) :
    Pickled → Option PyVal
  | Pickled.patom n => some (PyVal.atom n)
  | Pickled.pglobal m nm => env m nm
  | Pickled.pnil => some PyVal.nilV
  | Pickled.pcons a b =>
    match deserializeVal env a, deserializeVal env b with
    | some a', some b' => some (PyVal.consV a' b')
    | _, _ => none

/-- Every sentinel occurring in the value still carries the injected
serialization hooks, and the caller has bound that very instance as the
attribute `name` of the recorded module. -/
def BoundIn (env : Option String → String → Option PyVal) : PyVal → Prop
  | PyVal.atom _ => True
  | PyVal.sent i ty => ∃ nm m,
      dictGet ty.clsDict "__reduce__" = some (Member.reduceHook nm) ∧
      dictGet ty.clsDict "__module__" = some (Member.moduleAttr m) ∧
      env m nm = some (PyVal.sent i ty)
  | PyVal.nilV => True
  | PyVal.consV a b => BoundIn env a ∧ BoundIn env b

/-- `copy.copy`: a sentinel goes through its type's `__copy__` (the injected
hook returns the instance itself); a shallow container copy shares its
elements. -/
def copyVal : PyVal → Option PyVal
  | PyVal.atom n => some (PyVal.atom n)
  | PyVal.sent i ty =>
    match dictGet ty.clsDict "__copy__" with
    | some Member.copyHook => some (PyVal.sent i ty)
    | _ => none
  | PyVal.nilV => some PyVal.nilV
  | PyVal.consV a b => some (PyVal.consV a b)

/-- `copy.deepcopy`: a sentinel goes through its type's `__deepcopy__` (the
injected hook returns the instance itself); containers are copied
recursively. -/
def deepcopyVal : PyVal → Option PyVal
  | PyVal.atom n => some (PyVal.atom n)
  | PyVal.sent i ty =>
    match dictGet ty.clsDict "__deepcopy__" with
    | some Member.deepcopyHook => some (PyVal.sent i ty)
    | _ => none
  | PyVal.nilV => some PyVal.nilV
  | PyVal.consV a b =>
    match deepcopyVal a, deepcopyVal b with
    | some a', some b' => some (PyVal.consV a' b')
    | _, _ => none

/-- Every sentinel occurring in the value carries the injected copy hooks. -/
def HasCopyHooks : PyVal → Prop
  | PyVal.atom _ => True
  | PyVal.sent _ ty =>
      dictGet ty.clsDict "__copy__" = some Member.copyHook ∧
      dictGet ty.clsDict "__deepcopy__" = some Member.deepcopyHook
  | PyVal.nilV => True
  | PyVal.consV a b => HasCopyHooks a ∧ HasCopyHooks b

/-- `repr(instance)`: dispatches to the type's `__repr__`; the injected hook
returns the creation-time name. -/
def reprInstance (T : SentinelTy) : Option String :=
  match dictGet T.clsDict "__repr__" with
  | some (Member.reprHook nm) => some nm
  | _ => none

/-! ## Attribute resolution and instance storage -/

/-- The member dictionary a base class contributes to attribute lookup. -/
def capMembers : PyTy → Dict
  | PyTy.obj => []
  | PyTy.cls _ ms => ms

/-- Walk the base classes left to right for the first definition of `k`
(the C3 linearization of a class over unrelated bases visits them in base
order). -/
def firstInMro : List PyTy → String → Option Member
  | [], _ => none
  | c :: rest, k =>
    match dictGet (capMembers c) k with
    | some v => some v
    | none => firstInMro rest k

/-- Attribute lookup on the synthesized type: its own class dictionary
first, then the bases in order. -/
def resolveMember (T : SentinelTy) (k : String) : Option Member :=
  match dictGet T.clsDict k with
  | some v => some v
  | none => firstInMro T.mro k

/-- Whether a base class gives instances a `__dict__`: ordinary classes do,
`object` does not. -/
def providesInstanceDict : PyTy → Bool
  | PyTy.obj => false
  | PyTy.cls _ _ => true

/-- Instances of the type carry attribute storage unless the type declares
`__slots__` and no base supplies a `__dict__`. -/
def instanceHasDict (T : SentinelTy) : Bool :=
  (dictGet T.clsDict "__slots__").isNone || T.mro.any providesInstanceDict

/-- Assigning a new attribute on the instance raises `AttributeError`
exactly when the instance has no attribute storage. -/
def setattrFails (T : SentinelTy) : Bool :=
  ! instanceHasDict T

/-! ## Concrete sample data

The result of `create initState "S" [PyTy.obj] none (some "m") [] []`,
evaluated: the type, the resulting global state, and a module environment
binding the instance at module `"m"` under attribute `"S"`. -/

/-- The class dictionary of the sentinel type produced by
`create initState "S" [PyTy.obj] none (some "m") [] []`. -/
def sampleDict : Dict :=
  [("__module__", Member.moduleAttr (some "m")),
   ("__repr__", Member.reprHook "S"),
   ("__reduce__", Member.reduceHook "S"),
   ("__copy__", Member.copyHook),
   ("__deepcopy__", Member.deepcopyHook),
   ("__slots__", Member.emptySlots),
   ("__new__", Member.failingNew)]

/-- The sentinel type produced by
`create initState "S" [PyTy.obj] none (some "m") [] []`. -/
def sampleTy : SentinelTy := ⟨0, sampleDict, [PyTy.obj]⟩

/-- The global state after `create initState "S" [PyTy.obj] none (some "m") [] []`:
the type got id 0, its instance got id 1. -/
def sampleState : SState := ⟨2, [(0, 1)]⟩

/-- A module environment in which the caller has bound the sample sentinel
instance as attribute `"S"` of module `"m"`. -/
def sampleEnv : Option String → String → Option PyVal :=
  fun m n =>
    if m = some "m" ∧ n = "S" then some (PyVal.sent 1 sampleTy) else none

/-- The sentinel type produced by
`create initState "Leaf" [PyTy.obj] (some [("is_leaf", Member.user 0), ("__repr__", Member.user 1)]) (some "m") [] []`. -/
def sampleTyLeaf : SentinelTy :=
  ⟨0,
   [("__module__", Member.moduleAttr (some "m")),
    ("__repr__", Member.user 1),
    ("__reduce__", Member.reduceHook "Leaf"),
    ("__copy__", Member.copyHook),
    ("__deepcopy__", Member.deepcopyHook),
    ("__slots__", Member.emptySlots),
    ("is_leaf", Member.user 0),
    ("__new__", Member.failingNew)],
   [PyTy.obj]⟩

/-- The sentinel type produced by
`create initState "X" [PyTy.cls "A" [("m", Member.user 10)], PyTy.cls "B" [("m", Member.user 20)]] none (some "m") [] []`. -/
def sampleTyAB : SentinelTy :=
  ⟨0,
   [("__module__", Member.moduleAttr (some "m")),
    ("__repr__", Member.reprHook "X"),
    ("__reduce__", Member.reduceHook "X"),
    ("__copy__", Member.copyHook),
    ("__deepcopy__", Member.deepcopyHook),
    ("__new__", Member.failingNew)],
   [PyTy.cls "A" [("m", Member.user 10)], PyTy.cls "B" [("m", Member.user 20)]]⟩

/-- The sentinel type produced by
`create initState "S" [PyTy.cls "A" []] none (some "m") [] []`. -/
def sampleTyA : SentinelTy :=
  ⟨0,
   [("__module__", Member.moduleAttr (some "m")),
    ("__repr__", Member.reprHook "S"),
    ("__reduce__", Member.reduceHook "S"),
    ("__copy__", Member.copyHook),
    ("__deepcopy__", Member.deepcopyHook),
    ("__new__", Member.failingNew)],
   [PyTy.cls "A" []]⟩

/-! ## Dictionary lemmas -/

theorem dictGet_insert_self (d : Dict) (k : String) (v : Member) :
    dictGet (dictInsert d k v) k = some v := by
  induction d with
  | nil => simp [dictInsert, dictGet]
  | cons p rest ih =>
    obtain ⟨k', v'⟩ := p
    by_cases h : k' = k
    · simp [dictInsert, dictGet, h]
    · simp [dictInsert, dictGet, h, ih]

theorem dictGet_insert_ne (d : Dict) {k k' : String} (v : Member) (h : k ≠ k') :
    dictGet (dictInsert d k v) k' = dictGet d k' := by
  induction d with
  | nil => simp [dictInsert, dictGet, h]
  | cons p rest ih =>
    obtain ⟨k₀, v₀⟩ := p
    by_cases h₀ : k₀ = k
    · subst h₀
      simp [dictInsert, dictGet, h]
    · simp [dictInsert, dictGet, h₀, ih]

theorem dictGet_eq_none_of_not_mem {d : Dict} {k : String}
    (h : k ∉ d.map Prod.fst) : dictGet d k = none := by
  induction d with
  | nil => rfl
  | cons p rest ih =>
    obtain ⟨k₀, v₀⟩ := p
    simp only [List.map_cons, List.mem_cons, not_or] at h
    have hne : k₀ ≠ k := fun e => h.1 e.symm
    simp [dictGet, hne, ih h.2]

theorem dictUpdate_cons (d : Dict) (p : String × Member) (rest : Dict) :
    dictUpdate d (p :: rest) = dictUpdate (dictInsert d p.1 p.2) rest := rfl

theorem dictGet_update_of_none {other : Dict} {k : String}
    (h : dictGet other k = none) (d : Dict) :
    dictGet (dictUpdate d other) k = dictGet d k := by
  induction other generalizing d with
  | nil => rfl
  | cons p rest ih =>
    obtain ⟨k₀, v₀⟩ := p
    by_cases h₀ : k₀ = k
    · simp [dictGet, h₀] at h
    · have h' : dictGet rest k = none := by simpa [dictGet, h₀] using h
      rw [dictUpdate_cons, ih h', dictGet_insert_ne _ _ h₀]

theorem dictGet_update_of_some {other : Dict} {k : String} {v : Member}
    (hnd : (other.map Prod.fst).Nodup) (h : dictGet other k = some v) (d : Dict) :
    dictGet (dictUpdate d other) k = some v := by
  induction other generalizing d with
  | nil => simp [dictGet] at h
  | cons p rest ih =>
    obtain ⟨k₀, v₀⟩ := p
    simp only [List.map_cons, List.nodup_cons] at hnd
    by_cases h₀ : k₀ = k
    · subst h₀
      have hv : v₀ = v := by simpa [dictGet] using h
      subst hv
      have hrest : dictGet rest k₀ = none := dictGet_eq_none_of_not_mem hnd.1
      rw [dictUpdate_cons, dictGet_update_of_none hrest, dictGet_insert_self]
    · have h' : dictGet rest k = some v := by simpa [dictGet, h₀] using h
      rw [dictUpdate_cons]
      exact ih hnd.2 h' (dictInsert d k₀ v₀)

theorem composeDict_none (name : String) (mro : List PyTy) (caller : Option String) :
    composeDict name mro none caller =
      if mro = [PyTy.obj] then
        dictInsert (baseClsDict name caller) "__slots__" Member.emptySlots
      else baseClsDict name caller := rfl

theorem composeDict_some (name : String) (mro : List PyTy) (d : Dict)
    (caller : Option String) :
    composeDict name mro (some d) caller =
      dictUpdate
        (if mro = [PyTy.obj] then
          dictInsert (baseClsDict name caller) "__slots__" Member.emptySlots
        else baseClsDict name caller) d := rfl

theorem dictGet_composeDict_none_new (name : String) (mro : List PyTy)
    (caller : Option String) :
    dictGet (composeDict name mro none caller) "__new__" = none := by
  rw [composeDict_none]
  split <;> rfl

/-! ## Registry and construction lemmas -/

theorem lookupInstance_ge {st : SState} (hwf : st.WF) {n : Nat}
    (hn : st.nextId ≤ n) (m : Nat) :
    lookupInstance ⟨m, st.sinstances⟩ n = none := by
  unfold lookupInstance
  have hfind : st.sinstances.find? (fun p => p.1 == n) = none := by
    rw [List.find?_eq_none]
    intro p hp
    simp only [beq_iff_eq]
    exact Nat.ne_of_lt (lt_of_lt_of_le (hwf p hp) hn)
  simp [hfind]

theorem callSentinelTy_of_cached {st : SState} {T : SentinelTy} {i : Nat}
    (h : lookupInstance st T.tyId = some i) (args : List Nat)
    (kwargs : List (String × Nat)) :
    callSentinelTy st T args kwargs = Except.ok (i, st) := by
  unfold callSentinelTy
  rw [h]

theorem callSentinelTy_fresh {st : SState} {T : SentinelTy}
    (hlk : lookupInstance st T.tyId = none)
    (hnew : dictGet T.clsDict "__new__" = none)
    (args : List Nat) (kwargs : List (String × Nat)) :
    callSentinelTy st T args kwargs =
      Except.ok (st.nextId, ⟨st.nextId + 1, (T.tyId, st.nextId) :: st.sinstances⟩) := by
  unfold callSentinelTy
  rw [hlk, hnew]

theorem callSentinelTy_ok_lookup {st : SState} {T : SentinelTy}
    {args : List Nat} {kwargs : List (String × Nat)} {inst : Nat} {st' : SState}
    (h : callSentinelTy st T args kwargs = Except.ok (inst, st')) :
    lookupInstance st' T.tyId = some inst := by
  unfold callSentinelTy at h
  split at h
  · next i heq =>
    simp only [Except.ok.injEq, Prod.mk.injEq] at h
    obtain ⟨h1, h2⟩ := h
    subst h1
    subst h2
    exact heq
  · next heq =>
    split at h
    · exact absurd h (by simp)
    · simp only [Except.ok.injEq, Prod.mk.injEq] at h
      obtain ⟨h1, h2⟩ := h
      subst h1
      subst h2
      unfold lookupInstance
      rw [List.find?_cons_of_pos _ (by simp)]

theorem create_ok_parts {st : SState} {name : String} {mro : List PyTy}
    {cd : Option Dict} {caller : Option String} {args : List Nat}
    {kwargs : List (String × Nat)} {inst : Nat} {T : SentinelTy} {st' : SState}
    (h : create st name mro cd caller args kwargs = Except.ok (inst, T, st')) :
    T.tyId = st.nextId ∧
    T.clsDict = dictInsert (composeDict name mro cd caller) "__new__" Member.failingNew ∧
    T.mro = mro ∧
    lookupInstance st' T.tyId = some inst := by
  unfold create at h
  split at h
  · exact absurd h (by simp)
  · split at h
    · exact absurd h (by simp)
    · split at h
      · exact absurd h (by simp)
      · split at h
        · exact absurd h (by simp)
        · next inst₀ st₂ heq =>
          simp only [Except.ok.injEq, Prod.mk.injEq] at h
          obtain ⟨h1, h2, h3⟩ := h
          subst h1
          subst h2
          subst h3
          exact ⟨rfl, rfl, rfl,
            show lookupInstance st₂ st.nextId = some inst₀ from
              callSentinelTy_ok_lookup heq⟩

theorem create_ok_of {st : SState} (hwf : st.WF) (name : String) (mro : List PyTy)
    (hmc : mroCheck mro = Except.ok ()) (hne : mro.isEmpty = false)
    (hnd : mro.Nodup) (cd : Option Dict) (caller : Option String)
    (hnew : dictGet (composeDict name mro cd caller) "__new__" = none)
    (args : List Nat) (kwargs : List (String × Nat)) :
    create st name mro cd caller args kwargs =
      Except.ok (st.nextId + 1,
        ⟨st.nextId,
         dictInsert (composeDict name mro cd caller) "__new__" Member.failingNew,
         mro⟩,
        ⟨st.nextId + 2, (st.nextId, st.nextId + 1) :: st.sinstances⟩) := by
  have hlk : lookupInstance { st with nextId := st.nextId + 1 }
      (SentinelTy.mk st.nextId (composeDict name mro cd caller) mro).tyId = none :=
    lookupInstance_ge hwf (Nat.le_refl _) (st.nextId + 1)
  unfold create
  rw [hmc]
  rw [if_neg (by simp [hne])]
  rw [if_neg (by simp [hnd])]
  rw [callSentinelTy_fresh hlk hnew args kwargs]

/-! ## Hook-set lemmas -/

theorem roundtrip_of_boundIn (env : Option String → String → Option PyVal) :
    ∀ v : PyVal, BoundIn env v →
      (serializeVal v).bind (deserializeVal env) = some v := by
  intro v
  induction v with
  | atom n => intro _; rfl
  | sent i ty =>
    intro hv
    simp only [BoundIn] at hv
    obtain ⟨nm, m, h1, h2, h3⟩ := hv
    simp [serializeVal, h1, h2, deserializeVal, h3]
  | nilV => intro _; rfl
  | consV a b iha ihb =>
    intro hv
    simp only [BoundIn] at hv
    obtain ⟨ha, hb⟩ := hv
    have ha' := iha ha
    have hb' := ihb hb
    cases hsa : serializeVal a with
    | none => rw [hsa] at ha'; simp at ha'
    | some pa =>
      cases hsb : serializeVal b with
      | none => rw [hsb] at hb'; simp at hb'
      | some pb =>
        rw [hsa] at ha'
        rw [hsb] at hb'
        have ha'' : deserializeVal env pa = some a := ha'
        have hb'' : deserializeVal env pb = some b := hb'
        simp [serializeVal, hsa, hsb, deserializeVal, ha'', hb'']

theorem copy_of_hooks : ∀ v : PyVal, HasCopyHooks v →
    deepcopyVal v = some v ∧ copyVal v = some v := by
  intro v
  induction v with
  | atom n => intro _; exact ⟨rfl, rfl⟩
  | sent i ty =>
    intro hv
    simp only [HasCopyHooks] at hv
    obtain ⟨h1, h2⟩ := hv
    constructor
    · simp [deepcopyVal, h2]
    · simp [copyVal, h1]
  | nilV => intro _; exact ⟨rfl, rfl⟩
  | consV a b iha ihb =>
    intro hv
    simp only [HasCopyHooks] at hv
    obtain ⟨ha, hb⟩ := hv
    refine ⟨?_, rfl⟩
    simp [deepcopyVal, (iha ha).1, (ihb hb).1]

/-! ## The claims -/

/-- C1: for every SentinelType `T` produced by `create`, every construction
call on `T` after the first — whatever its positional or keyword arguments —
returns the identical cached instance produced by the first construction,
and leaves the global state unchanged. -/
theorem construction_returns_cached (st : SState) (name : String)
    (mro : List PyTy) (cd : Option Dict) (caller : Option String)
    (args : List Nat) (kwargs : List (String × Nat)) (inst : Nat)
    (T : SentinelTy) (st' : SState)
    (h : create st name mro cd caller args kwargs = Except.ok (inst, T, st'))
    (args' : List Nat) (kwargs' : List (String × Nat)) :
    callSentinelTy st' T args' kwargs' = Except.ok (inst, st') :=
  callSentinelTy_of_cached (create_ok_parts h).2.2.2 args' kwargs'

/-- Witness for C1: construct `S` with no arguments, call the type again
with different positional and keyword arguments, get the instance with id 1
back and an unchanged state. -/
theorem construction_returns_cached_witness :
    callSentinelTy sampleState sampleTy [7] [("k", 9)] =
      Except.ok (1, sampleState) :=
  construction_returns_cached initState "S" [PyTy.obj] none (some "m") [] []
    1 sampleTy sampleState rfl [7] [("k", 9)]

/-- C2: after the first successful construction, invoking the raw allocation
path `T.__new__` directly fails with the allocation error, while the guarded
construction path (a cache hit) succeeds and never raises it. -/
theorem raw_allocation_guard (st : SState) (name : String)
    (mro : List PyTy) (cd : Option Dict) (caller : Option String)
    (args : List Nat) (kwargs : List (String × Nat)) (inst : Nat)
    (T : SentinelTy) (st' : SState)
    (h : create st name mro cd caller args kwargs = Except.ok (inst, T, st')) :
    (∀ stA : SState, rawNew stA T = Except.error PyErr.allocationError) ∧
    (∀ (args' : List Nat) (kwargs' : List (String × Nat)),
      callSentinelTy st' T args' kwargs' = Except.ok (inst, st')) := by
  obtain ⟨-, hdict, -, hl⟩ := create_ok_parts h
  constructor
  · intro stA
    unfold rawNew
    rw [hdict, dictGet_insert_self]
  · intro args' kwargs'
    exact callSentinelTy_of_cached hl args' kwargs'

/-- Witness for C2: on the sample sentinel, the raw allocation path errors
and the guarded path returns the cached instance. -/
theorem raw_allocation_guard_witness :
    rawNew initState sampleTy = Except.error PyErr.allocationError ∧
    callSentinelTy sampleState sampleTy [] [] = Except.ok (1, sampleState) :=
  ⟨(raw_allocation_guard initState "S" [PyTy.obj] none (some "m") [] []
      1 sampleTy sampleState rfl).1 initState,
   (raw_allocation_guard initState "S" [PyTy.obj] none (some "m") [] []
      1 sampleTy sampleState rfl).2 [] []⟩

/-- C3: if the universal root `object` appears in the capabilities list but
is not its last element, composition fails with the specification error (the
`assert` on `mro[-1]`) before any instance exists; if the universal root is
the last element (the capabilities being distinct types, as any valid list
of base classes is), composition succeeds. -/
theorem root_last_rule (st : SState) (hwf : st.WF) (name : String)
    (mro : List PyTy) (cd : Option Dict) (caller : Option String)
    (args : List Nat) (kwargs : List (String × Nat)) :
    (PyTy.obj ∈ mro → mro.getLast? ≠ some PyTy.obj →
      create st name mro cd caller args kwargs =
        Except.error PyErr.specificationError) ∧
    (mro.getLast? = some PyTy.obj → mro.Nodup →
      ∃ r, create st name mro none caller args kwargs = Except.ok r) := by
  constructor
  · intro hmem hlast
    have hne : mro ≠ [PyTy.obj] := by
      rintro rfl
      exact hlast rfl
    have hmc : mroCheck mro = Except.error PyErr.specificationError := by
      unfold mroCheck
      rw [if_neg hne, if_pos hmem, if_neg hlast]
    unfold create
    rw [hmc]
  · intro hlast hnd
    have hmc : mroCheck mro = Except.ok () := by
      unfold mroCheck
      by_cases h1 : mro = [PyTy.obj]
      · rw [if_pos h1]
      · rw [if_neg h1]
        by_cases h2 : PyTy.obj ∈ mro
        · rw [if_pos h2, if_pos hlast]
        · rw [if_neg h2]
    have hne : mro.isEmpty = false := by
      cases mro
      · simp at hlast
      · rfl
    exact ⟨_, create_ok_of hwf name mro hmc hne hnd none caller
      (dictGet_composeDict_none_new name mro caller) args kwargs⟩

/-- Witness for C3: `[A, object]` has the root last; the rule's two parts
hold of this concrete capabilities list and the startup state. -/
theorem root_last_rule_witness :
    (PyTy.obj ∈ [PyTy.cls "A" [], PyTy.obj] →
      [PyTy.cls "A" [], PyTy.obj].getLast? ≠ some PyTy.obj →
      create initState "X" [PyTy.cls "A" [], PyTy.obj] none (some "m") [] [] =
        Except.error PyErr.specificationError) ∧
    ([PyTy.cls "A" [], PyTy.obj].getLast? = some PyTy.obj →
      [PyTy.cls "A" [], PyTy.obj].Nodup →
      ∃ r, create initState "X" [PyTy.cls "A" [], PyTy.obj] none (some "m") [] [] =
        Except.ok r) :=
  root_last_rule initState (fun p hp => absurd hp (List.not_mem_nil p)) "X"
    [PyTy.cls "A" [], PyTy.obj] none (some "m") [] []

/-- Counterexample to C6 as stated: with an explicitly empty capabilities
list, `create` does not succeed — evaluating the metaclass bases indexes
`mro[0]` and raises an `IndexError`. -/
theorem empty_capabilities_counterexample :
    create initState "X" [] none none [] [] = Except.error PyErr.indexError :=
  rfl

/-- C6 (amended): `create` with an explicitly empty capabilities list fails
with an index error at the `type(mro[0])` access; it is the default
capabilities value — the universal root alone — that yields a sentinel
composing only the universal root capability. -/
theorem empty_capabilities_error (st : SState) (name : String)
    (cd : Option Dict) (caller : Option String) (args : List Nat)
    (kwargs : List (String × Nat)) :
    create st name [] cd caller args kwargs = Except.error PyErr.indexError ∧
    (st.WF → ∃ inst T st',
      create st name [PyTy.obj] none caller args kwargs =
        Except.ok (inst, T, st') ∧ T.mro = [PyTy.obj]) := by
  constructor
  · rfl
  · intro hwf
    exact ⟨_, _, _,
      create_ok_of hwf name [PyTy.obj] rfl rfl (by simp) none caller rfl args kwargs,
      rfl⟩

/-- Witness for C6 (amended): at the startup state, the empty list fails
with the index error and the default capabilities succeed, composing only
the universal root. -/
theorem empty_capabilities_error_witness :
    create initState "X" [] none (some "m") [] [] =
      Except.error PyErr.indexError ∧
    ∃ inst T st',
      create initState "X" [PyTy.obj] none (some "m") [] [] =
        Except.ok (inst, T, st') ∧ T.mro = [PyTy.obj] :=
  ⟨(empty_capabilities_error initState "X" none (some "m") [] []).1,
   (empty_capabilities_error initState "X" none (some "m") [] []).2
     (fun p hp => absurd hp (List.not_mem_nil p))⟩

/-- C4: the factory records the caller's module and the name on the type at
creation time (in `__module__` and the string-returning `__reduce__`), and
for every sentinel whose instance the caller has bound as a module-level
attribute equal to its name, serializing and then deserializing yields the
identical instance — also when the sentinel is nested inside a container
value (any value all of whose sentinels are so bound). -/
theorem serialization_roundtrip (st : SState) (name : String)
    (caller : Option String) (args : List Nat) (kwargs : List (String × Nat))
    (inst : Nat) (T : SentinelTy) (st' : SState)
    (h : create st name [PyTy.obj] none caller args kwargs =
      Except.ok (inst, T, st')) :
    dictGet T.clsDict "__reduce__" = some (Member.reduceHook name) ∧
    dictGet T.clsDict "__module__" = some (Member.moduleAttr caller) ∧
    ∀ env : Option String → String → Option PyVal,
      env caller name = some (PyVal.sent inst T) →
      ((serializeVal (PyVal.sent inst T)).bind (deserializeVal env) =
          some (PyVal.sent inst T) ∧
        ∀ v : PyVal, BoundIn env v →
          (serializeVal v).bind (deserializeVal env) = some v) := by
  obtain ⟨-, hdict, -, -⟩ := create_ok_parts h
  have hred : dictGet T.clsDict "__reduce__" = some (Member.reduceHook name) := by
    rw [hdict]; rfl
  have hmod : dictGet T.clsDict "__module__" = some (Member.moduleAttr caller) := by
    rw [hdict]; rfl
  refine ⟨hred, hmod, fun env henv => ⟨?_, fun v hv => roundtrip_of_boundIn env v hv⟩⟩
  exact roundtrip_of_boundIn env (PyVal.sent inst T) ⟨name, caller, hred, hmod, henv⟩

/-- Witness for C4: with the sample instance bound as attribute `"S"` of
module `"m"`, pickling and unpickling returns the identical instance, also
when it sits inside a container. -/
theorem serialization_roundtrip_witness :
    (serializeVal (PyVal.sent 1 sampleTy)).bind (deserializeVal sampleEnv) =
      some (PyVal.sent 1 sampleTy) ∧
    (serializeVal (PyVal.consV (PyVal.atom 0) (PyVal.sent 1 sampleTy))).bind
        (deserializeVal sampleEnv) =
      some (PyVal.consV (PyVal.atom 0) (PyVal.sent 1 sampleTy)) :=
  ⟨((serialization_roundtrip initState "S" (some "m") [] [] 1 sampleTy
      sampleState rfl).2.2 sampleEnv rfl).1,
   ((serialization_roundtrip initState "S" (some "m") [] [] 1 sampleTy
      sampleState rfl).2.2 sampleEnv rfl).2
     (PyVal.consV (PyVal.atom 0) (PyVal.sent 1 sampleTy))
     ⟨trivial, "S", some "m", rfl, rfl, rfl⟩⟩

/-- C5: shallow copy and deep copy of a sentinel instance both return the
identical instance, `deepcopy` after `deepcopy` is still the identical
instance, and any value whose sentinels carry the injected copy hooks deep
copies to an equal value — every nested sentinel keeps its identity. -/
theorem copy_preserves_identity (st : SState) (name : String)
    (caller : Option String) (args : List Nat) (kwargs : List (String × Nat))
    (inst : Nat) (T : SentinelTy) (st' : SState)
    (h : create st name [PyTy.obj] none caller args kwargs =
      Except.ok (inst, T, st')) :
    copyVal (PyVal.sent inst T) = some (PyVal.sent inst T) ∧
    deepcopyVal (PyVal.sent inst T) = some (PyVal.sent inst T) ∧
    (deepcopyVal (PyVal.sent inst T)).bind deepcopyVal =
      some (PyVal.sent inst T) ∧
    ∀ v : PyVal, HasCopyHooks v →
      deepcopyVal v = some v ∧ copyVal v = some v := by
  obtain ⟨-, hdict, -, -⟩ := create_ok_parts h
  have hc : dictGet T.clsDict "__copy__" = some Member.copyHook := by
    rw [hdict]; rfl
  have hd : dictGet T.clsDict "__deepcopy__" = some Member.deepcopyHook := by
    rw [hdict]; rfl
  have hooks : HasCopyHooks (PyVal.sent inst T) := ⟨hc, hd⟩
  have h1 := copy_of_hooks (PyVal.sent inst T) hooks
  refine ⟨h1.2, h1.1, ?_, fun v hv => copy_of_hooks v hv⟩
  rw [h1.1]
  exact h1.1

/-- Witness for C5: on the sample instance, shallow copy, deep copy and the
composition of two deep copies are the identity, also with the instance
nested inside a container. -/
theorem copy_preserves_identity_witness :
    copyVal (PyVal.sent 1 sampleTy) = some (PyVal.sent 1 sampleTy) ∧
    (deepcopyVal (PyVal.sent 1 sampleTy)).bind deepcopyVal =
      some (PyVal.sent 1 sampleTy) ∧
    deepcopyVal (PyVal.consV (PyVal.sent 1 sampleTy) PyVal.nilV) =
      some (PyVal.consV (PyVal.sent 1 sampleTy) PyVal.nilV) :=
  ⟨(copy_preserves_identity initState "S" (some "m") [] [] 1 sampleTy
      sampleState rfl).1,
   (copy_preserves_identity initState "S" (some "m") [] [] 1 sampleTy
      sampleState rfl).2.2.1,
   ((copy_preserves_identity initState "S" (some "m") [] [] 1 sampleTy
      sampleState rfl).2.2.2
     (PyVal.consV (PyVal.sent 1 sampleTy) PyVal.nilV) ⟨⟨rfl, rfl⟩, trivial⟩).1⟩

/-- C7: with a caller-supplied `cls_dict`, every caller entry other than
`__new__` ends up in the produced type's dictionary, overriding the injected
default of the same name; the construction guard itself is installed as the
type's `__new__` after construction, whatever the caller supplied. -/
theorem extra_members_precedence (st : SState) (name : String) (mro : List PyTy)
    (d : Dict) (caller : Option String) (args : List Nat)
    (kwargs : List (String × Nat)) (inst : Nat) (T : SentinelTy) (st' : SState)
    (hnd : (d.map Prod.fst).Nodup)
    (h : create st name mro (some d) caller args kwargs =
      Except.ok (inst, T, st')) :
    dictGet T.clsDict "__new__" = some Member.failingNew ∧
    ∀ k v, k ≠ "__new__" → dictGet d k = some v → dictGet T.clsDict k = some v := by
  obtain ⟨-, hdict, -, -⟩ := create_ok_parts h
  refine ⟨by rw [hdict, dictGet_insert_self], fun k v hk hkv => ?_⟩
  rw [hdict, dictGet_insert_ne _ _ (Ne.symm hk), composeDict_some]
  exact dictGet_update_of_some hnd hkv _

/-- Witness for C7: the caller's `__repr__` and `is_leaf` both land in the
produced dictionary, and `__new__` is nevertheless the guard. -/
theorem extra_members_precedence_witness :
    dictGet sampleTyLeaf.clsDict "__new__" = some Member.failingNew ∧
    dictGet sampleTyLeaf.clsDict "__repr__" = some (Member.user 1) ∧
    dictGet sampleTyLeaf.clsDict "is_leaf" = some (Member.user 0) :=
  ⟨(extra_members_precedence initState "Leaf" [PyTy.obj]
      [("is_leaf", Member.user 0), ("__repr__", Member.user 1)] (some "m") [] []
      1 sampleTyLeaf sampleState (by decide) rfl).1,
   (extra_members_precedence initState "Leaf" [PyTy.obj]
      [("is_leaf", Member.user 0), ("__repr__", Member.user 1)] (some "m") [] []
      1 sampleTyLeaf sampleState (by decide) rfl).2
     "__repr__" (Member.user 1) (by decide) rfl,
   (extra_members_precedence initState "Leaf" [PyTy.obj]
      [("is_leaf", Member.user 0), ("__repr__", Member.user 1)] (some "m") [] []
      1 sampleTyLeaf sampleState (by decide) rfl).2
     "is_leaf" (Member.user 0) (by decide) rfl⟩

/-- C8: when the caller's `cls_dict` does not override the display hook,
rendering the produced instance yields exactly the creation-time name. -/
theorem repr_equals_name (st : SState) (name : String) (mro : List PyTy)
    (cd : Option Dict) (caller : Option String) (args : List Nat)
    (kwargs : List (String × Nat)) (inst : Nat) (T : SentinelTy) (st' : SState)
    (hcd : ∀ d, cd = some d → dictGet d "__repr__" = none)
    (h : create st name mro cd caller args kwargs = Except.ok (inst, T, st')) :
    reprInstance T = some name := by
  obtain ⟨-, hdict, -, -⟩ := create_ok_parts h
  have hr : dictGet T.clsDict "__repr__" = some (Member.reprHook name) := by
    rw [hdict, dictGet_insert_ne _ _ (by decide : "__new__" ≠ "__repr__")]
    cases cd with
    | none =>
      rw [composeDict_none]
      split <;> rfl
    | some d =>
      rw [composeDict_some, dictGet_update_of_none (hcd d rfl)]
      split <;> rfl
  unfold reprInstance
  rw [hr]

/-- Witness for C8: a sentinel created as `"Leaf"` with an extra member that
does not touch `__repr__` renders as `"Leaf"`. -/
theorem repr_equals_name_witness :
    reprInstance
      ⟨0,
       [("__module__", Member.moduleAttr (some "m")),
        ("__repr__", Member.reprHook "Leaf"),
        ("__reduce__", Member.reduceHook "Leaf"),
        ("__copy__", Member.copyHook),
        ("__deepcopy__", Member.deepcopyHook),
        ("__slots__", Member.emptySlots),
        ("is_leaf", Member.user 0),
        ("__new__", Member.failingNew)],
       [PyTy.obj]⟩ = some "Leaf" :=
  repr_equals_name initState "Leaf" [PyTy.obj]
    (some [("is_leaf", Member.user 0)]) (some "m") [] [] 1 _ sampleState
    (fun d hd => by cases hd; rfl) rfl

/-- C9: for capabilities `[A, B]` that both define a member `m` (which is
not one of the injected hook names), the produced type resolves `m` to `A`'s
definition — the earlier capability wins, left to right. -/
theorem resolution_order (st : SState) (name nA nB : String) (mA mB : Dict)
    (caller : Option String) (args : List Nat) (kwargs : List (String × Nat))
    (inst : Nat) (T : SentinelTy) (st' : SState) (m : String) (vA vB : Member)
    (h : create st name [PyTy.cls nA mA, PyTy.cls nB mB] none caller args kwargs =
      Except.ok (inst, T, st'))
    (hA : dictGet mA m = some vA) (hB : dictGet mB m = some vB)
    (hm : m ∉ ["__module__", "__repr__", "__reduce__", "__copy__",
               "__deepcopy__", "__new__"]) :
    resolveMember T m = some vA := by
  obtain ⟨-, hdict, hmro, -⟩ := create_ok_parts h
  simp only [List.mem_cons, List.not_mem_nil, or_false, not_or] at hm
  obtain ⟨h1, h2, h3, h4, h5, h6⟩ := hm
  have hTd : dictGet T.clsDict m = none := by
    rw [hdict, dictGet_insert_ne _ _ (Ne.symm h6), composeDict_none,
        if_neg (by simp)]
    exact dictGet_eq_none_of_not_mem (by simp [baseClsDict, h1, h2, h3, h4, h5])
  unfold resolveMember
  rw [hTd, hmro]
  simp only [firstInMro, capMembers]
  rw [hA]

/-- Witness for C9: capabilities `A` and `B` both define `m`; the sentinel
resolves `m` to `A`'s definition. -/
theorem resolution_order_witness :
    resolveMember sampleTyAB "m" = some (Member.user 10) :=
  resolution_order initState "X" "A" "B"
    [("m", Member.user 10)] [("m", Member.user 20)] (some "m") [] []
    1 sampleTyAB sampleState "m" (Member.user 10) (Member.user 20)
    rfl rfl rfl (by decide)

/-- C10: with the default capabilities (the universal root alone) the
factory declares `__slots__ = ()` on the type, so the instance has no
attribute storage and attribute assignment fails; with any other
capabilities list the factory adds no `__slots__` entry. -/
theorem slots_restriction (st : SState) (name : String) (caller : Option String)
    (args : List Nat) (kwargs : List (String × Nat)) (mro : List PyTy) :
    (∀ inst T st',
      create st name [PyTy.obj] none caller args kwargs =
        Except.ok (inst, T, st') →
      dictGet T.clsDict "__slots__" = some Member.emptySlots ∧
        setattrFails T = true) ∧
    (mro ≠ [PyTy.obj] →
      ∀ inst T st',
        create st name mro none caller args kwargs = Except.ok (inst, T, st') →
        dictGet T.clsDict "__slots__" = none) := by
  constructor
  · intro inst T st' h
    obtain ⟨-, hdict, hmro, -⟩ := create_ok_parts h
    have hs : dictGet T.clsDict "__slots__" = some Member.emptySlots := by
      rw [hdict, dictGet_insert_ne _ _ (by decide : "__new__" ≠ "__slots__"),
          composeDict_none, if_pos rfl, dictGet_insert_self]
    refine ⟨hs, ?_⟩
    unfold setattrFails instanceHasDict
    rw [hs, hmro]
    rfl
  · intro hne inst T st' h
    obtain ⟨-, hdict, -, -⟩ := create_ok_parts h
    rw [hdict, dictGet_insert_ne _ _ (by decide : "__new__" ≠ "__slots__"),
        composeDict_none, if_neg hne]
    rfl

/-- Witness for C10: the default-capabilities sample type declares empty
slots and rejects attribute assignment; the sample type over capability `A`
has no `__slots__` entry. -/
theorem slots_restriction_witness :
    (dictGet sampleTy.clsDict "__slots__" = some Member.emptySlots ∧
      setattrFails sampleTy = true) ∧
    dictGet sampleTyA.clsDict "__slots__" = none :=
  ⟨(slots_restriction initState "S" (some "m") [] [] [PyTy.cls "A" []]).1
      1 sampleTy sampleState rfl,
   (slots_restriction initState "S" (some "m") [] [] [PyTy.cls "A" []]).2
      (by decide) 1 sampleTyA sampleState rfl⟩

end Sentinel
